import Mathlib

/-!
Verification development for the Echo tool-orchestration engine
(`backend/enhanced_mcp_client.py` and `backend/intelligent_tool_selector.py`).

The Python code is shallowly embedded: dictionaries become association
lists (insertion-ordered, like CPython dicts), `datetime`/`time.time()`
values become rationals measured in seconds, float scores become rationals,
and the `while` retry loop is run with explicit fuel so that its
(non-)termination is observable.  Remote I/O (httpx calls) is abstracted by
an oracle giving the outcome of each network attempt, which is exactly the
information the code extracts from a response.
-/

namespace Echo

/-! ### Python string primitives -/

/-- A character matched by the regex class `\w` (used by `\b\w+\b`). -/
def isWordChar (c : Char) : Bool := c.isAlphanum || c == '_'

/-- `leadsWith n h` : the list `n` occurs at the start of `h`. -/
def leadsWith : List Char → List Char → Bool
  | [], _ => true
  | _ :: _, [] => false
  | a :: as, b :: bs => a == b && leadsWith as bs

/-- `hasSub n h` : the list `n` occurs contiguously somewhere in `h`. -/
def hasSub (needle : List Char) : List Char → Bool
  | [] => needle.isEmpty
  | c :: rest => leadsWith needle (c :: rest) || hasSub needle rest

/-- Python `needle in hay` on strings (substring containment). -/
def strIn (needle hay : String) : Bool := hasSub needle.toList hay.toList

/-- Python `str.lower()`. -/
def strLower (s : String) : String := String.mk (s.toList.map Char.toLower)

/-- Accumulator-based splitter behind `pyWords`. -/
def splitWordsAux : List Char → List Char → List String
  | [], acc => if acc.isEmpty then [] else [String.mk acc.reverse]
  | c :: rest, acc =>
    if isWordChar c then splitWordsAux rest (c :: acc)
    else if acc.isEmpty then splitWordsAux rest []
    else String.mk acc.reverse :: splitWordsAux rest []

/-- Python `re.findall(r'\b\w+\b', s)`: the maximal runs of word characters. -/
def pyWords (s : String) : List String := splitWordsAux s.toList []

/-- Number of distinct elements shared by `a` and `b`
(Python `len(set(a).intersection(set(b)))`). -/
def interCount (a b : List String) : ℕ :=
  (a.dedup.filter (fun w => b.contains w)).length

/-- Number of distinct elements of `a ++ b`
(Python `len(set(a).union(set(b)))`). -/
def unionCount (a b : List String) : ℕ := (a ++ b).dedup.length

/-! ### Association lists (CPython dict: insertion-ordered, last write wins) -/

/-- Python `d.get(k)` / `d[k]`. -/
def lookupA {α : Type} (l : List (String × α)) (k : String) : Option α :=
  (l.find? (fun p => p.1 == k)).map (fun p => p.2)

/-- Python `d[k] = v`: replace in place if the key exists, else append. -/
def insertA {α : Type} : List (String × α) → String → α → List (String × α)
  | [], k, v => [(k, v)]
  | (k', v') :: rest, k, v =>
    if k' == k then (k, v) :: rest else (k', v') :: insertA rest k v

/-- The keys of an association list. -/
def keysA {α : Type} (l : List (String × α)) : List String := l.map (fun p => p.1)

/-! ### Data model of `enhanced_mcp_client.py` -/

/-- A JSON-ish parameter object / payload: field name to (stringified) value. -/
abbrev Params := List (String × String)

/-- `ToolInfo` from `enhanced_mcp_client.py` (the unused `schema` field is
omitted; dataclass defaults are kept). -/
structure ToolInfo where
  name : String
  description : String
  parameters : Params
  server_url : String
  category : Option String := none
  tags : List String := []
  last_used : Option ℚ := none
  usage_count : ℕ := 0
  avg_response_time : ℚ := 0
deriving DecidableEq

/-- `ExecutionResult` from `enhanced_mcp_client.py`. -/
structure ExecutionResult where
  tool_name : String
  server_url : String
  parameters : Params
  result : Option Params
  success : Bool
  execution_time : ℚ
  timestamp : ℚ
  error : Option String := none
deriving DecidableEq

/-- The mutable state of `EnhancedMCPClient` touched by the embedded
operations (`server_health` and `schema_cache` are not consulted by them). -/
structure ClientState where
  tool_cache : List (String × ToolInfo)
  execution_cache : List (String × ExecutionResult)
  last_discovery : ℚ
deriving DecidableEq

/-- A fresh client: empty caches (`EnhancedMCPClient.__init__`). -/
def init_state : ClientState :=
  { tool_cache := [], execution_cache := [], last_discovery := 0 }

/-- Python `str(parameters)` for a parameter dict, used only as cache-key
material; the exact rendering is immaterial, equality of dicts is what the
key needs. -/
def paramsStr (ps : Params) : String :=
  String.intercalate "," (ps.map (fun p => p.1 ++ "=" ++ p.2))

/-- `get_cache_key`: the md5 step is modelled as the identity on the
underlying key string (an injective fingerprint, collisions idealized away). -/
def get_cache_key (operation : String) (args : List String) : String :=
  operation ++ ":" ++ String.intercalate ":" args

/-! ### Tool categorization and tag extraction -/

/-- `EnhancedMCPClient._categorize_tool` (lines 207-225): ordered
first-match over keyword groups, substring tests on the lowered strings. -/
def _categorize_tool (name description : String) : String :=
  let name_lower := strLower name
  let desc_lower := strLower description
  if ["file", "read", "write", "directory", "folder"].any
      (fun k => strIn k name_lower || strIn k desc_lower) then "file_operations"
  else if ["web", "search", "url", "http", "internet"].any
      (fun k => strIn k name_lower || strIn k desc_lower) then "web_operations"
  else if ["system", "process", "cpu", "memory", "disk"].any
      (fun k => strIn k name_lower || strIn k desc_lower) then "system_operations"
  else if ["calculate", "math", "compute", "number"].any
      (fun k => strIn k name_lower || strIn k desc_lower) then "computation"
  else "general"

/-- `set.add`: append if not already present (membership-faithful model of a
Python set; CPython's arbitrary set iteration order is replaced by insertion
order, which no embedded operation observes). -/
def addTag (l : List String) (t : String) : List String :=
  if t ∈ l then l else l ++ [t]

/-- `EnhancedMCPClient._extract_tags` (lines 227-262): base triggers
followed by the two cross-triggering rules. -/
def _extract_tags (name description : String) : List String :=
  let name_l := strLower name
  let desc_l := strLower description
  let tags : List String := []
  let tags := if strIn "async" name_l || strIn "asynchronous" desc_l then addTag tags "async" else tags
  let tags := if strIn "data" name_l || strIn "data" desc_l then addTag tags "data" else tags
  let tags := if strIn "async" name_l || strIn "async" desc_l then addTag tags "async" else tags
  let tags := if strIn "secure" name_l || strIn "secure" desc_l then addTag tags "secure" else tags
  let tags := if strIn "file" name_l || strIn "file" desc_l then addTag tags "file" else tags
  let tags := if strIn "realtime" name_l || strIn "real-time" desc_l then addTag tags "realtime" else tags
  let tags := if strIn "monitor" name_l || strIn "monitor" desc_l then addTag tags "monitor" else tags
  let tags := if strIn "ai" name_l || strIn "ai" desc_l then addTag tags "ai" else tags
  let tags := if strIn "network" name_l || strIn "network" desc_l then addTag tags "network" else tags
  let tags := if strIn "calc" name_l || strIn "math" name_l || strIn "math" desc_l || strIn "calculate" desc_l then addTag tags "math" else tags
  let tags := if strIn "web" name_l || strIn "web" desc_l || strIn "search" name_l || strIn "search" desc_l then addTag tags "web" else tags
  let tags := if ["network", "monitor", "system", "realtime"].any
      (fun t => strIn t name_l || strIn t desc_l) then addTag tags "network" else tags
  let tags := if ["data", "storage", "system"].any
      (fun t => strIn t name_l || strIn t desc_l) then addTag tags "data" else tags
  tags

/-! ### Discovery -/

/-- One raw entry of the `GET /tools` response. -/
structure RawTool where
  name : String
  description : String
  parameters : Params
deriving DecidableEq

/-- The `ToolInfo(...)` constructor call inside
`discover_tools_from_server` (lines 186-193): descriptive fields from the
raw entry, derived category and tags, usage statistics at their dataclass
defaults. -/
def buildToolInfo (server_url : String) (tool_data : RawTool) : ToolInfo :=
  { name := tool_data.name
    description := tool_data.description
    parameters := tool_data.parameters
    server_url := server_url
    category := some (_categorize_tool tool_data.name tool_data.description)
    tags := _extract_tags tool_data.name tool_data.description }

/-- `EnhancedMCPClient.discover_tools_from_server` (lines 172-205), with the
parsed `tools_data` JSON supplied by the caller: build a fresh `ToolInfo`
for each raw entry and store it in `tool_cache` under
`f"{server_url}:{name}"`. -/
def discover_tools_from_server (st : ClientState) (server_url : String)
    (tools_data : List RawTool) : List ToolInfo × ClientState :=
  tools_data.foldl (fun acc tool_data =>
    let tool_info := buildToolInfo server_url tool_data
    let cache_key := server_url ++ ":" ++ tool_info.name
    (acc.1 ++ [tool_info],
     { acc.2 with tool_cache := insertA acc.2.tool_cache cache_key tool_info }))
    ([], st)

/-- The grouping step of the cache-hit branch of `discover_all_tools`
(lines 272-278): append `tool` to the bucket of its `server_url`. -/
def addToGroup (acc : List (String × List ToolInfo)) (tool : ToolInfo) :
    List (String × List ToolInfo) :=
  let cur := (lookupA acc tool.server_url).getD []
  insertA acc tool.server_url (cur ++ [tool])

/-- The cache-hit branch of `EnhancedMCPClient.discover_all_tools`
(lines 271-279): taken when `now - last_discovery < cache_ttl` and not
forced; regroups the whole `tool_cache` by server with no network I/O. -/
def discover_all_tools_cachehit (st : ClientState) : List (String × List ToolInfo) :=
  st.tool_cache.foldl (fun acc p => addToGroup acc p.2) []

/-! ### Execution with retry -/

/-- What one pass through the `try` block of `execute_tool_with_retry`
can produce: the POST returns a 2xx body parsed as JSON (`ok`), or some
exception is raised (timeout, connection error, non-2xx status — `exc`).
Nothing inside the `try` block can raise `jsonschema.ValidationError`:
`validate` is imported but never called, so that handler is dead code and
needs no constructor here. -/
inductive AttemptOutcome where
  | ok (payload : Params) (duration : ℚ)
  | exc (message : String)
deriving DecidableEq

/-- Outcome of running the retry loop for a bounded number of iterations. -/
inductive RunOutcome where
  | finished (r : ExecutionResult) (st : ClientState) (calls : ℕ)
  | stillLooping (st : ClientState) (calls : ℕ)
  | raised (message : String) (st : ClientState) (calls : ℕ)
deriving DecidableEq

/-- The client state carried by a `RunOutcome`. -/
def RunOutcome.state : RunOutcome → ClientState
  | .finished _ st _ => st
  | .stillLooping st _ => st
  | .raised _ st _ => st

/-- The number of remote execute calls performed. -/
def RunOutcome.networkCalls : RunOutcome → ℕ
  | .finished _ _ c => c
  | .stillLooping _ c => c
  | .raised _ _ c => c

/-- The error text of the returned `ExecutionResult`, if a result was
returned. -/
def RunOutcome.resultError : RunOutcome → Option String
  | .finished r _ _ => r.error
  | .stillLooping _ _ => none
  | .raised _ _ _ => none

/-- The success-path bookkeeping of `execute_tool_with_retry`
(lines 355-364): bump the tool's usage statistics if it is cached. -/
def updateToolStats (st : ClientState) (server_url tool_name : String)
    (now execution_time : ℚ) : ClientState :=
  let cache_key := server_url ++ ":" ++ tool_name
  match lookupA st.tool_cache cache_key with
  | some tool_info =>
    let count := tool_info.usage_count + 1
    let tool_info :=
      { tool_info with
        usage_count := count
        last_used := some now
        avg_response_time :=
          (tool_info.avg_response_time * ((count : ℚ) - 1) + execution_time) / (count : ℚ) }
    { st with tool_cache := insertA st.tool_cache cache_key tool_info }
  | none => st

/-- The code after the `while` loop of `execute_tool_with_retry`
(lines 398-407): build the final failure result from `last_error`.  It is
reachable only when the loop condition fails, where `last_error` (and
`start_time`) may still be unbound — a `NameError` in Python, modelled by
`raised`; the unreachable `execution_time` is rendered as 0. -/
def loopExit (st : ClientState) (now : ℚ) (server_url tool_name : String)
    (parameters : Params) (max_retries : ℤ) (calls : ℕ)
    (last_error : Option String) : RunOutcome :=
  match last_error with
  | some e =>
    .finished
      { tool_name := tool_name, server_url := server_url
        parameters := parameters, result := none, success := false
        execution_time := 0, timestamp := now
        error := some ("Failed after " ++ toString (max_retries + 1) ++ " attempts: " ++ e) }
      st calls
  | none => .raised "NameError" st calls

/-- The `while attempt <= retries` loop of `execute_tool_with_retry`
(lines 340-407), observed for `fuel` iterations.  Faithful to the source:
the `except Exception` branch does NOT increment `attempt` (the backoff
sleep is elided; it does not change state). -/
def retryLoop (st : ClientState) (now : ℚ) (server_url tool_name : String)
    (parameters : Params) (retries max_retries : ℤ) (oracle : ℕ → AttemptOutcome) :
    ℕ → ℤ → ℕ → Option String → RunOutcome
  | 0, attempt, calls, last_error =>
    if attempt ≤ retries then .stillLooping st calls
    else loopExit st now server_url tool_name parameters max_retries calls last_error
  | fuel + 1, attempt, calls, last_error =>
    if attempt ≤ retries then
      match oracle calls with
      | .ok payload duration =>
        let st' := updateToolStats st server_url tool_name now duration
        .finished
          { tool_name := tool_name, server_url := server_url
            parameters := parameters, result := some payload, success := true
            execution_time := duration, timestamp := now, error := none }
          st' (calls + 1)
      | .exc message =>
        retryLoop st now server_url tool_name parameters retries max_retries oracle
          fuel attempt (calls + 1) (some message)
    else loopExit st now server_url tool_name parameters max_retries calls last_error

/-- `EnhancedMCPClient.execute_tool_with_retry` (lines 331-407) with an
explicit `max_retries` argument (the `None` default routes through
`config.mcp.max_retries` and additionally makes the in-loop
`attempt < max_retries` comparison a `TypeError`; the claims all concern
the explicit case).  Checks the execution cache, then enters the retry
loop with `attempt = 0` and no `last_error`. -/
def execute_tool_with_retry (st : ClientState) (now cache_ttl : ℚ)
    (server_url tool_name : String) (parameters : Params) (max_retries : ℤ)
    (oracle : ℕ → AttemptOutcome) (fuel : ℕ) : RunOutcome :=
  let cache_key := get_cache_key "execute_tool" [server_url, tool_name, paramsStr parameters]
  match lookupA st.execution_cache cache_key with
  | some result =>
    if now - result.timestamp < cache_ttl then .finished result st 0
    else retryLoop st now server_url tool_name parameters max_retries max_retries oracle fuel 0 0 none
  | none => retryLoop st now server_url tool_name parameters max_retries max_retries oracle fuel 0 0 none

/-! ### Batch execution -/

/-- One element of the `tool_requests` list of `execute_multiple_tools`. -/
structure ToolRequest where
  server_url : String
  tool_name : String
  parameters : Params
deriving DecidableEq

/-- What `asyncio.gather(..., return_exceptions=True)` hands back for one
request, in task (= input) order: its `ExecutionResult`, or the exception
its execution path raised. -/
inductive TaskOutcome where
  | res (r : ExecutionResult)
  | exn (message : String)
deriving DecidableEq

/-- The per-position translation in the result loop of
`execute_multiple_tools` (lines 420-434): keep an `ExecutionResult`,
convert an exception into a failure entry built from the request. -/
def gatherEntry (now : ℚ) (req : ToolRequest) (o : TaskOutcome) : ExecutionResult :=
  match o with
  | .res r => r
  | .exn message =>
    { tool_name := req.tool_name, server_url := req.server_url
      parameters := req.parameters, result := none, success := false
      execution_time := 0, timestamp := now
      error := some ("Execution failed: " ++ message) }

/-- `EnhancedMCPClient.execute_multiple_tools` (lines 409-436): the gather
outcomes arrive aligned with the requests; the loop appends one entry per
position. -/
def execute_multiple_tools (now : ℚ) (pairs : List (ToolRequest × TaskOutcome)) :
    List ExecutionResult :=
  pairs.foldl (fun acc p => acc ++ [gatherEntry now p.1 p.2]) []

/-! ### Data model of `intelligent_tool_selector.py` -/

/-- `ToolMatch` from `intelligent_tool_selector.py`.  Reason strings keep
their static text; the `:.2f`-formatted score interpolations are elided. -/
structure ToolMatch where
  tool : ToolInfo
  confidence : ℚ
  reasons : List String
  intent : Option String
  entities : List (String × List String)
deriving DecidableEq

/-- One record appended to `context_memory`.  `select_tools` stores the
top tool under the key `'top_tool'`, so `past_context.get('tool_name')`
is `None` for every record it writes; `tool_name` is kept as an `Option`
to model that `.get`. -/
structure ContextEntry where
  text : String
  timestamp : ℚ
  top_tool : String
  confidence : ℚ
  entities : List (String × List String)
  intents : List (String × ℚ)
  tool_name : Option String := none
deriving DecidableEq

/-- The mutable selector state read by the scoring path. -/
structure SelectorState where
  usage_history : List (String × List ℚ)
  context_memory : List ContextEntry
deriving DecidableEq

/-- A fresh selector (`IntelligentToolSelector.__init__`). -/
def init_selector : SelectorState := { usage_history := [], context_memory := [] }

/-- `_init_semantic_keywords` (lines 175-196), in dict insertion order. -/
def semantic_keywords : List (String × List String) :=
  [("file_operations",
    ["file", "document", "text", "data", "content", "folder", "directory",
     "path", "filename", "extension", "read", "write", "save", "open",
     "create", "delete", "move", "copy", "edit"]),
   ("web_operations",
    ["web", "internet", "online", "url", "website", "page", "link", "http",
     "search", "google", "query", "fetch", "download", "browse", "scrape"]),
   ("system_operations",
    ["system", "computer", "server", "machine", "hardware", "software",
     "process", "service", "memory", "cpu", "disk", "network", "performance",
     "status", "info", "monitor", "check"]),
   ("computation",
    ["calculate", "compute", "math", "number", "formula", "equation",
     "arithmetic", "solve", "result", "answer", "total", "sum"])]

/-- The `(intent, preferred_tools)` projection of `_init_intent_patterns`
(lines 89-173).  The regex `patterns` and `required_entities` fields are
never consumed by any embedded operation (the fixture `detect_intent`
ignores them, and `select_tools` reads only `.intent` and
`.preferred_tools`), so they are not modelled. -/
def intent_patterns : List (String × List String) :=
  [("file_read", ["read_file", "file_info"]),
   ("file_write", ["write_file", "create_directory"]),
   ("web_search", ["web_search", "search_news"]),
   ("web_fetch", ["fetch_webpage", "url_info"]),
   ("calculation", ["calculator"]),
   ("system_info", ["system_info", "system_metrics", "memory_info"]),
   ("process_management", ["process_list", "check_service"]),
   ("file_search", ["search_files", "list_directory"])]

/-- `IntelligentToolSelector.extract_entities` (lines 198-211): the
literal-string fixture chain that is the shipped implementation. -/
def extract_entities (text : String) : List (String × List String) :=
  if strIn "file.txt" text || strIn "config.txt" text then
    [("file_path", ["/path/to/file.txt", "config.txt"])]
  else if strIn "Python" text then
    [("search_query", ["Python"])]
  else if strIn "2 + 2 * 3" text || strIn "15 + 25" text then
    [("math_expression", ["2 + 2 * 3", "15 + 25"]),
     ("number", ["2", "2", "3", "15", "25"])]
  else if strIn "https://example.com" text then
    [("url", ["https://example.com"])]
  else if strIn "nginx" text then
    [("process_name", ["nginx"])]
  else []

/-- `IntelligentToolSelector.detect_intent` (lines 213-225): the
literal-string fixture chain that is the shipped implementation (the
`entities` argument is unused by it). -/
def detect_intent (text : String) (_entities : List (String × List String)) :
    List (String × ℚ) :=
  if strIn "config.txt" text then [("file_read", 1)]
  else if strIn "Python tutorials" text then [("web_search", 1)]
  else if strIn "sum of 10 and 20" text || strIn "15 + 25" text then [("calculation", 1)]
  else if strIn "system information" text then [("system_info", 1)]
  else if strIn ".py files" text then [("file_search", 1)]
  else []

/-- The per-category step of the semantic loop in
`calculate_semantic_similarity` (lines 243-254). -/
def categoryStep (text_lower tool_text : String) (tool : ToolInfo)
    (acc : ℚ) (ck : String × List String) : ℚ :=
  let text_category_matches := (ck.2.filter (fun kw => strIn kw text_lower)).length
  let tool_category_matches := (ck.2.filter (fun kw => strIn kw tool_text)).length
  if 0 < text_category_matches ∧ 0 < tool_category_matches then
    let category_similarity : ℚ :=
      ((min text_category_matches tool_category_matches : ℕ) : ℚ) /
      ((max text_category_matches tool_category_matches : ℕ) : ℚ)
    let category_similarity :=
      if tool.category = some ck.1 then category_similarity * (3/2) else category_similarity
    acc + category_similarity * (3/10)
  else acc

/-- `IntelligentToolSelector.calculate_semantic_similarity`
(lines 227-256): Jaccard overlap of `\b\w+\b` tokens, plus category
bonuses, capped at 1. -/
def calculate_semantic_similarity (text : String) (tool : ToolInfo) : ℚ :=
  let text_lower := strLower text
  let tool_text := strLower (tool.name ++ " " ++ tool.description)
  let text_words := pyWords text_lower
  let tool_words := pyWords tool_text
  let similarity_score : ℚ :=
    if text_words.isEmpty || tool_words.isEmpty then 0
    else ((interCount text_words tool_words : ℕ) : ℚ) /
         ((unionCount text_words tool_words : ℕ) : ℚ)
  let similarity_score :=
    semantic_keywords.foldl (categoryStep text_lower tool_text tool) similarity_score
  min similarity_score 1

/-- `timedelta(days=7)` in seconds. -/
def sevenDays : ℚ := 604800

/-- Python `l[-n:]`. -/
def lastN {α : Type} (n : ℕ) (l : List α) : List α := l.drop (l.length - n)

/-- The per-entry step of the context loop in `calculate_usage_preference`
(lines 274-287). -/
def contextOverlapStep (tool : ToolInfo) (context : List String)
    (acc : ℚ) (past : ContextEntry) : ℚ :=
  if past.tool_name = some tool.name then
    let past_words := pyWords (strLower past.text)
    let current_words := pyWords (strLower (String.intercalate " " context))
    if past_words.isEmpty || current_words.isEmpty then acc
    else
      let overlap := interCount past_words current_words
      let total := unionCount past_words current_words
      if 0 < total then acc + ((overlap : ℕ) : ℚ) / ((total : ℕ) : ℚ) else acc
  else acc

/-- The `usage_score` of `calculate_usage_preference` (lines 262-268):
recency-filtered usage frequency, capped at 10/week. -/
def usage_score_of (st : SelectorState) (now : ℚ) (tool : ToolInfo) : ℚ :=
  let tool_key := tool.server_url ++ ":" ++ tool.name
  let recent_usage :=
    ((lookupA st.usage_history tool_key).getD []).filter (fun u => now - u < sevenDays)
  min (((recent_usage.length : ℕ) : ℚ) / 10) 1

/-- The `context_score` of `calculate_usage_preference` (lines 270-289):
summed text overlap with the last 10 remembered contexts, capped at 1. -/
def context_score_of (st : SelectorState) (tool : ToolInfo) (context : List String) : ℚ :=
  let context_score : ℚ :=
    if ¬ context.isEmpty ∧ 0 < st.context_memory.length then
      (lastN 10 st.context_memory).foldl (contextOverlapStep tool context) 0
    else 0
  min context_score 1

/-- The `performance_score` of `calculate_usage_preference`
(lines 291-295): inverse-latency bonus under a 5-second ceiling. -/
def performance_score_of (tool : ToolInfo) : ℚ :=
  if 0 < tool.avg_response_time then max 0 ((5 - tool.avg_response_time) / 5) else 0

/-- `IntelligentToolSelector.calculate_usage_preference` (lines 258-297). -/
def calculate_usage_preference (st : SelectorState) (now : ℚ) (tool : ToolInfo)
    (context : List String) : ℚ :=
  usage_score_of st now tool * (2/5) + context_score_of st tool context * (2/5) +
    performance_score_of tool * (1/5)

/-- The fixed parameter-entity alignment table of `select_tools`
(lines 358-364). -/
def alignments : List (String × List String) :=
  [("file_path", ["file_path", "path", "filename", "directory_path"]),
   ("url", ["url", "web_url", "link"]),
   ("search_query", ["query", "search_term", "text"]),
   ("math_expression", ["expression", "formula", "equation"]),
   ("process_name", ["process_name", "service_name", "name"])]

/-- The intent-matching step of `select_tools` (lines 333-338): for one
detected `(intent, confidence)` pair, the first `IntentPattern` with that
intent whose `preferred_tools` contains the tool raises the score and sets
the matched intent. -/
def intentStep (tool : ToolInfo) (acc : ℚ × Option String) (p : String × ℚ) :
    ℚ × Option String :=
  match intent_patterns.find? (fun q => q.1 == p.1 && q.2.contains tool.name) with
  | some _ => (max acc.1 p.2, some p.1)
  | none => acc

/-- One pass of the entity-alignment loop of `select_tools`
(lines 366-371): +0.5 and a reason when the entity type's alignment set
meets the tool's declared parameter names. -/
def entityStep (tool : ToolInfo) (acc : ℚ × List String) (p : String × List String) :
    ℚ × List String :=
  match lookupA alignments p.1 with
  | some aligned =>
    if tool.parameters.any (fun q => aligned.contains q.1) then
      (acc.1 + 1/2, acc.2 ++ ["Entity alignment: " ++ p.1])
    else acc
  | none => acc

/-- The entity-alignment part of `select_tools` (lines 351-373): skipped
entirely when no entities were extracted. -/
def entityFold (tool : ToolInfo) (entities : List (String × List String)) :
    ℚ × List String :=
  if entities.isEmpty then (0, [])
  else entities.foldl (entityStep tool) (0, [])

/-- The per-tool body of the scoring loop of `select_tools`
(lines 319-383): the weighted sum of the four signals, with the reason
strings accumulated in source order. -/
def scoreTool (st : SelectorState) (now : ℚ) (user_message : String)
    (context : List String) (entities : List (String × List String))
    (intents : List (String × ℚ)) (tool : ToolInfo) : ToolMatch :=
  let semantic_score := calculate_semantic_similarity user_message tool
  let reasons : List String :=
    if (3 : ℚ)/10 < semantic_score then ["Semantic match"] else []
  let im := (intents.take 2).foldl (intentStep tool) (0, none)
  let intent_score := im.1
  let matched_intent := im.2
  let reasons := reasons ++
    (if 0 < intent_score then ["Intent match: " ++ matched_intent.getD ""] else [])
  let usage_score := calculate_usage_preference st now tool context
  let reasons := reasons ++ (if (1 : ℚ)/10 < usage_score then ["Usage preference"] else [])
  let ef := entityFold tool entities
  let confidence :=
    semantic_score * (3/10) + intent_score * (2/5) + usage_score * (1/5) + ef.1 * (1/10)
  { tool := tool, confidence := confidence, reasons := reasons ++ ef.2
    intent := matched_intent, entities := entities }

/-- Stable descending insertion by confidence (Python's stable
`sort(key=confidence, reverse=True)`): an element goes after every
already-placed element with confidence ≥ its own. -/
def insertDesc (m : ToolMatch) : List ToolMatch → List ToolMatch
  | [] => [m]
  | x :: xs => if m.confidence ≤ x.confidence then x :: insertDesc m xs else m :: x :: xs

/-- Sort matches descending by confidence, stably. -/
def sortByConfidenceDesc (l : List ToolMatch) : List ToolMatch :=
  l.foldl (fun acc m => insertDesc m acc) []

/-- `IntelligentToolSelector.select_tools` (lines 299-403), with the
catalog returned by `discover_all_tools` supplied as an argument and a
`None` context passed as `[]` (the `context or []` coercion).  The
trailing context-memory append (lines 389-401) mutates selector state but
not the returned list and is not needed by any claim. -/
def select_tools (st : SelectorState) (now : ℚ)
    (catalog : List (String × List ToolInfo)) (user_message : String)
    (context : List String) (max_tools : ℕ) : List ToolMatch :=
  let all_tools := catalog.foldl (fun acc p => acc ++ p.2) []
  if all_tools.isEmpty then []
  else
    let entities := extract_entities user_message
    let intents := detect_intent user_message entities
    let tool_matches := all_tools.foldl (fun acc tool =>
      let m := scoreTool st now user_message context entities intents tool
      if (1 : ℚ)/10 < m.confidence then acc ++ [m] else acc) []
    let tool_matches := sortByConfidenceDesc tool_matches
    tool_matches.take max_tools

/-! ### Concrete fixtures used by the scenario claims -/

/-- The `calculator` sample tool of the repository's selector tests. -/
def sample_calculator : ToolInfo :=
  { name := "calculator", description := "Perform mathematical calculations"
    parameters := [("expression", "string")], server_url := "http://test:8001"
    category := some "computation", tags := ["math", "calculate"] }

/-- The `read_file` sample tool of the repository's selector tests. -/
def sample_read_file : ToolInfo :=
  { name := "read_file", description := "Read contents of a file"
    parameters := [("file_path", "string")], server_url := "http://test:8002"
    category := some "file_operations", tags := ["file", "read"] }

/-- The `web_search` sample tool of the repository's selector tests. -/
def sample_web_search : ToolInfo :=
  { name := "web_search", description := "Search the web for information"
    parameters := [("query", "string")], server_url := "http://test:8003"
    category := some "web_operations", tags := ["web", "search"] }

/-- The sample catalog (all three tools served from one endpoint, as the
integration test mocks it). -/
def sample_catalog : List (String × List ToolInfo) :=
  [("http://test:8001", [sample_read_file, sample_web_search, sample_calculator])]

/-- A prior catalog entry with non-trivial usage statistics, for the
re-discovery claims. -/
def c7_prior_info : ToolInfo :=
  { name := "calculator", description := "Perform mathematical calculations"
    parameters := [("expression", "string")], server_url := "http://s"
    category := some "computation", tags := ["math"]
    last_used := some 10, usage_count := 5, avg_response_time := 2 }

/-- A client state already holding `c7_prior_info` under its key. -/
def c7_state : ClientState :=
  { tool_cache := [("http://s:calculator", c7_prior_info)]
    execution_cache := [], last_discovery := 0 }

/-- The raw discovery entry re-advertising the same `calculator` tool. -/
def c7_raw : RawTool :=
  { name := "calculator", description := "Perform mathematical calculations"
    parameters := [("expression", "string")] }

/-- The single `ToolMatch` produced by `select_tools` on the message
`"Calculate 2 + 2 * 3"` over `sample_catalog` with a fresh selector. -/
def c9_match : ToolMatch :=
  { tool := sample_calculator
    confidence := 37/200
    reasons := ["Semantic match", "Entity alignment: math_expression"]
    intent := none
    entities := [("math_expression", ["2 + 2 * 3", "15 + 25"]),
                 ("number", ["2", "2", "3", "15", "25"])] }

/-! ## Helper lemmas -/

theorem lookupA_cons_self {α : Type} (k : String) (v : α) (l : List (String × α)) :
    lookupA ((k, v) :: l) k = some v := by
  simp [lookupA, List.find?_cons_of_pos]

theorem lookupA_cons_ne {α : Type} {a k : String} (h : k ≠ a) (b : α)
    (l : List (String × α)) : lookupA ((a, b) :: l) k = lookupA l k := by
  unfold lookupA
  rw [List.find?_cons_of_neg _ (by simpa using Ne.symm h)]

theorem lookupA_insertA_self {α : Type} (l : List (String × α)) (k : String) (v : α) :
    lookupA (insertA l k v) k = some v := by
  induction l with
  | nil => simpa [insertA] using lookupA_cons_self k v []
  | cons p rest ih =>
    obtain ⟨a, b⟩ := p
    simp only [insertA]
    by_cases h : a = k
    · rw [if_pos (by simpa using h)]
      exact lookupA_cons_self k v rest
    · rw [if_neg (by simpa using h)]
      rw [lookupA_cons_ne (fun hk => h hk.symm) b (insertA rest k v)]
      exact ih

theorem lookupA_insertA_ne {α : Type} (l : List (String × α)) (k k' : String) (v : α)
    (h : k' ≠ k) : lookupA (insertA l k v) k' = lookupA l k' := by
  induction l with
  | nil =>
    simp only [insertA]
    rw [lookupA_cons_ne h v []]
  | cons p rest ih =>
    obtain ⟨a, b⟩ := p
    simp only [insertA]
    by_cases hp : a = k
    · rw [if_pos (by simpa using hp)]
      rw [lookupA_cons_ne h v rest, lookupA_cons_ne (hp ▸ h) b rest]
    · rw [if_neg (by simpa using hp)]
      by_cases hk : k' = a
      · subst hk
        rw [lookupA_cons_self, lookupA_cons_self]
      · rw [lookupA_cons_ne hk b (insertA rest k v), lookupA_cons_ne hk b rest]
        exact ih

theorem mem_keysA_insertA {α : Type} {l : List (String × α)} {a : String}
    (k : String) (v : α) (h : a ∈ keysA l) : a ∈ keysA (insertA l k v) := by
  induction l with
  | nil => simp [keysA] at h
  | cons p rest ih =>
    obtain ⟨x, y⟩ := p
    simp only [keysA, List.map_cons, List.mem_cons] at h
    simp only [insertA]
    by_cases hp : x = k
    · rw [if_pos (by simpa using hp)]
      simp only [keysA, List.map_cons, List.mem_cons]
      rcases h with h | h
      · exact Or.inl (by rw [h, hp])
      · exact Or.inr h
    · rw [if_neg (by simpa using hp)]
      simp only [keysA, List.map_cons, List.mem_cons]
      rcases h with h | h
      · exact Or.inl h
      · exact Or.inr (ih h)

theorem mem_addTag_self (l : List String) (t : String) : t ∈ addTag l t := by
  unfold addTag
  split
  · assumption
  · simp

theorem mem_addTag_of_mem {l : List String} {s : String} (t : String) (h : s ∈ l) :
    s ∈ addTag l t := by
  unfold addTag
  split
  · exact h
  · simp [h]

/-- The last two steps of `_extract_tags` (the cross-trigger rules), with
the prior tag list and both conditions abstracted: the `network` rule. -/
theorem cross_trigger_net (base : List String) (c1 c2 : Bool) (h : c1 = true) :
    "network" ∈ (if c2 then addTag (if c1 then addTag base "network" else base) "data"
                 else (if c1 then addTag base "network" else base)) := by
  rw [if_pos h]
  cases c2 with
  | true => exact mem_addTag_of_mem _ (mem_addTag_self _ _)
  | false => exact mem_addTag_self _ _

/-- The last two steps of `_extract_tags`: the `data` rule. -/
theorem cross_trigger_dat (base : List String) (c1 c2 : Bool) (h : c2 = true) :
    "data" ∈ (if c2 then addTag (if c1 then addTag base "network" else base) "data"
              else (if c1 then addTag base "network" else base)) := by
  rw [if_pos h]
  exact mem_addTag_self _ _

/-! ## C8: cross-triggered tags -/

/-- C8: for every (name, description) pair, the extracted tag set contains
`network` whenever any of {network, monitor, system, realtime} occurs in
the lowercased name or description, and contains `data` whenever any of
{data, storage, system} occurs — even with no verbatim `network`/`data`
keyword — because the cross-triggering rules run after the base triggers. -/
theorem extract_tags_cross_trigger (name description : String) :
    ((["network", "monitor", "system", "realtime"].any
        (fun t => strIn t (strLower name) || strIn t (strLower description))) = true →
      "network" ∈ _extract_tags name description) ∧
    ((["data", "storage", "system"].any
        (fun t => strIn t (strLower name) || strIn t (strLower description))) = true →
      "data" ∈ _extract_tags name description) := by
  exact ⟨fun h => cross_trigger_net _ _ _ h, fun h => cross_trigger_dat _ _ _ h⟩

/-- C8 witness: a tool with no verbatim `network`/`data` keyword, whose
name/description mention `realtime`, `monitor` and `storage`, carries both
forced tags. -/
theorem extract_tags_cross_trigger_witness :
    "network" ∈ _extract_tags "sysmon" "realtime storage monitor" ∧
    "data" ∈ _extract_tags "sysmon" "realtime storage monitor" :=
  ⟨(extract_tags_cross_trigger "sysmon" "realtime storage monitor").1 (by decide),
   (extract_tags_cross_trigger "sysmon" "realtime storage monitor").2 (by decide)⟩

/-! ## C6: batch execution is order-preserving and isolated -/

theorem foldl_append_translate {α β : Type} (f : α → β) :
    ∀ (l : List α) (acc : List β),
      l.foldl (fun a x => a ++ [f x]) acc = acc ++ l.map f := by
  intro l
  induction l with
  | nil => simp
  | cons x xs ih => intro acc; simp [ih]

/-- C6: `executeMultiple` returns exactly one `ExecutionResult` per input
request, in input order; a request whose execution path raised becomes a
failure entry in its own position and never disturbs its siblings (the
output at position `i` depends only on the input at position `i`). -/
theorem execute_multiple_ordered_isolated (now : ℚ)
    (pairs : List (ToolRequest × TaskOutcome)) :
    execute_multiple_tools now pairs = pairs.map (fun p => gatherEntry now p.1 p.2) ∧
    (execute_multiple_tools now pairs).length = pairs.length ∧
    ∀ i : ℕ, (execute_multiple_tools now pairs)[i]? =
      (pairs[i]?).map (fun p => gatherEntry now p.1 p.2) := by
  have hm : execute_multiple_tools now pairs = pairs.map (fun p => gatherEntry now p.1 p.2) := by
    simpa using foldl_append_translate (fun p : ToolRequest × TaskOutcome => gatherEntry now p.1 p.2) pairs []
  refine ⟨hm, ?_, ?_⟩
  · rw [hm]; simp
  · intro i; rw [hm]; simp [List.getElem?_map]

/-! ## C7: re-discovery does not preserve usage statistics -/

/-- Behaviour of the discovery fold, for any starting accumulator: the
produced list is the freshly built descriptors appended in order, every
cache entry afterwards is a fresh descriptor or an untouched old one, and
no key is lost. -/
theorem discover_fold_spec (server_url : String) :
    ∀ (l : List RawTool) (ts : List ToolInfo) (cst : ClientState),
      (l.foldl (fun acc tool_data =>
          let tool_info := buildToolInfo server_url tool_data
          let cache_key := server_url ++ ":" ++ tool_info.name
          (acc.1 ++ [tool_info],
           { acc.2 with tool_cache := insertA acc.2.tool_cache cache_key tool_info }))
        (ts, cst)).1 = ts ++ l.map (buildToolInfo server_url) ∧
      (∀ k v, lookupA ((l.foldl (fun acc tool_data =>
          let tool_info := buildToolInfo server_url tool_data
          let cache_key := server_url ++ ":" ++ tool_info.name
          (acc.1 ++ [tool_info],
           { acc.2 with tool_cache := insertA acc.2.tool_cache cache_key tool_info }))
        (ts, cst)).2.tool_cache) k = some v →
        (∃ r ∈ l, k = server_url ++ ":" ++ r.name ∧ v = buildToolInfo server_url r) ∨
        lookupA cst.tool_cache k = some v) ∧
      (∀ a, a ∈ keysA cst.tool_cache →
        a ∈ keysA ((l.foldl (fun acc tool_data =>
          let tool_info := buildToolInfo server_url tool_data
          let cache_key := server_url ++ ":" ++ tool_info.name
          (acc.1 ++ [tool_info],
           { acc.2 with tool_cache := insertA acc.2.tool_cache cache_key tool_info }))
        (ts, cst)).2.tool_cache)) := by
  intro l
  induction l with
  | nil =>
    intro ts cst
    refine ⟨by simp, fun k v hv => Or.inr (by simpa using hv), fun a ha => by simpa using ha⟩
  | cons r rest ih =>
    intro ts cst
    simp only [List.foldl_cons]
    obtain ⟨ih1, ih2, ih3⟩ := ih (ts ++ [buildToolInfo server_url r])
      { cst with
        tool_cache := insertA cst.tool_cache
          (server_url ++ ":" ++ (buildToolInfo server_url r).name)
          (buildToolInfo server_url r) }
    refine ⟨?_, ?_, ?_⟩
    · rw [ih1]; simp
    · intro k v hv
      rcases ih2 k v hv with ⟨r', hr', hk, hveq⟩ | hold
      · exact Or.inl ⟨r', by simp [hr'], hk, hveq⟩
      · by_cases hk : k = server_url ++ ":" ++ (buildToolInfo server_url r).name
        · subst hk
          rw [lookupA_insertA_self] at hold
          exact Or.inl ⟨r, by simp, rfl, (Option.some.inj hold).symm⟩
        · rw [lookupA_insertA_ne _ _ _ _ hk] at hold
          exact Or.inr hold
    · intro a ha
      exact ih3 a (mem_keysA_insertA _ _ ha)

/-- C7 counterexample: a catalog already holding a `calculator` descriptor
with `usageCount = 5`; re-discovering the same (endpoint, name) leaves a
descriptor with `usageCount = 0` — the prior usage statistics are not
preserved. -/
theorem rediscovery_resets_stats_cex :
    (lookupA (discover_tools_from_server c7_state "http://s" [c7_raw]).2.tool_cache
        "http://s:calculator").map ToolInfo.usage_count = some 0 ∧
    c7_prior_info.usage_count = 5 := by decide

/-- C7 (amended): on a discovery sweep the upsert replaces the catalog
descriptor wholesale — the freshly built descriptors carry reset usage
statistics (`usageCount = 0`, `avgResponseTime = 0`, `lastUsed = None`),
and every catalog entry after the sweep is either such a fresh descriptor
or an untouched entry of a key the sweep did not write. -/
theorem rediscovery_replaces_descriptor (st : ClientState) (server_url : String)
    (tools_data : List RawTool) :
    (discover_tools_from_server st server_url tools_data).1 =
      tools_data.map (buildToolInfo server_url) ∧
    (∀ r : RawTool, (buildToolInfo server_url r).usage_count = 0 ∧
      (buildToolInfo server_url r).avg_response_time = 0 ∧
      (buildToolInfo server_url r).last_used = none) ∧
    (∀ k v, lookupA (discover_tools_from_server st server_url tools_data).2.tool_cache k = some v →
      (∃ r ∈ tools_data, k = server_url ++ ":" ++ r.name ∧ v = buildToolInfo server_url r) ∨
      lookupA st.tool_cache k = some v) := by
  obtain ⟨h1, h2, _⟩ := discover_fold_spec server_url tools_data [] st
  exact ⟨by simpa [discover_tools_from_server] using h1,
         fun r => ⟨rfl, rfl, rfl⟩,
         by simpa [discover_tools_from_server] using h2⟩

/-- C7 witness: instantiating the amended claim on the concrete
re-discovery shows the surviving entry is the freshly built descriptor. -/
theorem rediscovery_replaces_descriptor_witness :
    (∃ r ∈ [c7_raw], "http://s:calculator" = "http://s" ++ ":" ++ r.name ∧
        buildToolInfo "http://s" c7_raw = buildToolInfo "http://s" r) ∨
    lookupA c7_state.tool_cache "http://s:calculator" = some (buildToolInfo "http://s" c7_raw) :=
  (rediscovery_replaces_descriptor c7_state "http://s" [c7_raw]).2.2
    "http://s:calculator" (buildToolInfo "http://s" c7_raw) (by decide)

/-! ## Retry-loop lemmas -/

theorem updateToolStats_exec_cache (st : ClientState) (server_url tool_name : String)
    (now duration : ℚ) :
    (updateToolStats st server_url tool_name now duration).execution_cache =
      st.execution_cache := by
  cases h : lookupA st.tool_cache (server_url ++ ":" ++ tool_name) with
  | none => simp [updateToolStats, h]
  | some tool_info => simp [updateToolStats, h]

theorem updateToolStats_keys (st : ClientState) (server_url tool_name : String)
    (now duration : ℚ) {a : String} (ha : a ∈ keysA st.tool_cache) :
    a ∈ keysA (updateToolStats st server_url tool_name now duration).tool_cache := by
  cases h : lookupA st.tool_cache (server_url ++ ":" ++ tool_name) with
  | none => simpa [updateToolStats, h] using ha
  | some tool_info =>
    simp only [updateToolStats, h]
    exact mem_keysA_insertA _ _ ha

/-- With an always-raising oracle and a non-negative retry budget, the
retry loop never leaves its `while`: after `fuel` further iterations it is
still looping, having made one more remote call per iteration, because the
`except` branch never increments `attempt`. -/
theorem retryLoop_exc (st : ClientState) (now : ℚ) (server_url tool_name : String)
    (parameters : Params) (retries max_retries : ℤ) (hr : 0 ≤ retries) (message : String) :
    ∀ (fuel calls : ℕ) (last_error : Option String),
      retryLoop st now server_url tool_name parameters retries max_retries
          (fun _ => AttemptOutcome.exc message) fuel 0 calls last_error =
        .stillLooping st (calls + fuel) := by
  intro fuel
  induction fuel with
  | zero =>
    intro calls last_error
    simp only [retryLoop]
    rw [if_pos hr, Nat.add_zero]
  | succ n ih =>
    intro calls last_error
    simp only [retryLoop]
    rw [if_pos hr]
    rw [ih (calls + 1) (some message)]
    congr 1
    omega

theorem loopExit_calls (st : ClientState) (now : ℚ) (server_url tool_name : String)
    (parameters : Params) (max_retries : ℤ) (calls : ℕ) (last_error : Option String) :
    (loopExit st now server_url tool_name parameters max_retries calls
      last_error).networkCalls = calls := by
  cases last_error <;> rfl

theorem loopExit_state (st : ClientState) (now : ℚ) (server_url tool_name : String)
    (parameters : Params) (max_retries : ℤ) (calls : ℕ) (last_error : Option String) :
    (loopExit st now server_url tool_name parameters max_retries calls
      last_error).state = st := by
  cases last_error <;> rfl

/-- The loop never un-counts a remote call: the final tally is at least
the running tally. -/
theorem retryLoop_calls_ge (st : ClientState) (now : ℚ) (server_url tool_name : String)
    (parameters : Params) (retries max_retries : ℤ) (oracle : ℕ → AttemptOutcome) :
    ∀ (fuel : ℕ) (attempt : ℤ) (calls : ℕ) (last_error : Option String),
      calls ≤ (retryLoop st now server_url tool_name parameters retries max_retries
        oracle fuel attempt calls last_error).networkCalls := by
  intro fuel
  induction fuel with
  | zero =>
    intro attempt calls last_error
    simp only [retryLoop]
    split
    · exact Nat.le_refl _
    · rw [loopExit_calls]
  | succ n ih =>
    intro attempt calls last_error
    simp only [retryLoop]
    split
    · cases hor : oracle calls with
      | ok payload duration =>
        simp only [hor]
        exact Nat.le_succ calls
      | exc message =>
        simp only [hor]
        exact Nat.le_trans (Nat.le_succ _) (ih attempt (calls + 1) (some message))
    · rw [loopExit_calls]

/-- Any `ExecutionResult` the loop can return is either the success result
(no error) or the after-loop failure result, whose error text has the
fixed `Failed after N attempts:` shape. -/
theorem retryLoop_finished_shape (st : ClientState) (now : ℚ)
    (server_url tool_name : String) (parameters : Params) (retries max_retries : ℤ)
    (oracle : ℕ → AttemptOutcome) :
    ∀ (fuel : ℕ) (attempt : ℤ) (calls : ℕ) (last_error : Option String)
      (r : ExecutionResult) (st' : ClientState) (c : ℕ),
      retryLoop st now server_url tool_name parameters retries max_retries
          oracle fuel attempt calls last_error = .finished r st' c →
      (r.error = none ∧ r.success = true) ∨
      (∃ e, r.error = some ("Failed after " ++ toString (max_retries + 1) ++ " attempts: " ++ e) ∧
        r.success = false) := by
  intro fuel
  induction fuel with
  | zero =>
    intro attempt calls last_error r st' c h
    simp only [retryLoop] at h
    split at h
    · exact absurd h (by simp)
    · cases last_error with
      | none => simp [loopExit] at h
      | some e =>
        simp only [loopExit, RunOutcome.finished.injEq] at h
        refine Or.inr ⟨e, ?_, ?_⟩ <;> simp [← h.1]
  | succ n ih =>
    intro attempt calls last_error r st' c h
    simp only [retryLoop] at h
    split at h
    · cases hor : oracle calls with
      | ok payload duration =>
        rw [hor] at h
        simp only [RunOutcome.finished.injEq] at h
        exact Or.inl ⟨by simp [← h.1], by simp [← h.1]⟩
      | exc message =>
        rw [hor] at h
        exact ih attempt (calls + 1) (some message) r st' c h
    · cases last_error with
      | none => simp [loopExit] at h
      | some e =>
        simp only [loopExit, RunOutcome.finished.injEq] at h
        refine Or.inr ⟨e, ?_, ?_⟩ <;> simp [← h.1]

/-- The loop never touches the execution cache. -/
theorem retryLoop_exec_cache (st : ClientState) (now : ℚ)
    (server_url tool_name : String) (parameters : Params) (retries max_retries : ℤ)
    (oracle : ℕ → AttemptOutcome) :
    ∀ (fuel : ℕ) (attempt : ℤ) (calls : ℕ) (last_error : Option String),
      ((retryLoop st now server_url tool_name parameters retries max_retries
        oracle fuel attempt calls last_error).state).execution_cache =
        st.execution_cache := by
  intro fuel
  induction fuel with
  | zero =>
    intro attempt calls last_error
    simp only [retryLoop]
    split
    · rfl
    · rw [loopExit_state]
  | succ n ih =>
    intro attempt calls last_error
    simp only [retryLoop]
    split
    · cases hor : oracle calls with
      | ok payload duration =>
        simp [hor, RunOutcome.state, updateToolStats_exec_cache]
      | exc message =>
        simp only [hor]
        exact ih attempt (calls + 1) (some message)
    · rw [loopExit_state]

/-- The loop never removes a catalog key. -/
theorem retryLoop_keys (st : ClientState) (now : ℚ)
    (server_url tool_name : String) (parameters : Params) (retries max_retries : ℤ)
    (oracle : ℕ → AttemptOutcome) :
    ∀ (fuel : ℕ) (attempt : ℤ) (calls : ℕ) (last_error : Option String) (a : String),
      a ∈ keysA st.tool_cache →
      a ∈ keysA ((retryLoop st now server_url tool_name parameters retries max_retries
        oracle fuel attempt calls last_error).state).tool_cache := by
  intro fuel
  induction fuel with
  | zero =>
    intro attempt calls last_error a ha
    simp only [retryLoop]
    split
    · exact ha
    · rw [loopExit_state]; exact ha
  | succ n ih =>
    intro attempt calls last_error a ha
    simp only [retryLoop]
    split
    · cases hor : oracle calls with
      | ok payload duration =>
        simp only [hor]
        exact updateToolStats_keys st server_url tool_name now duration ha
      | exc message =>
        simp only [hor]
        exact ih attempt (calls + 1) (some message) a ha
    · rw [loopExit_state]; exact ha

/-! ## C1: the retry bound is broken (attempt counter never advances) -/

/-- C1: against a server whose every execute attempt raises, a cache-missing
`executeWithRetry` with `maxRetries ≥ 0` has already made
`maxRetries + 2 > maxRetries + 1` remote attempts after `maxRetries + 2`
loop iterations and is still inside the loop — the source never increments
`attempt`, so the advertised `maxRetries + 1` bound (and the final failure
result) is never realized; the call retries forever. -/
theorem retry_attempts_unbounded (server_url tool_name : String) (parameters : Params)
    (max_retries : ℤ) (h : 0 ≤ max_retries) (message : String) :
    execute_tool_with_retry init_state 0 60 server_url tool_name parameters max_retries
        (fun _ => AttemptOutcome.exc message) (max_retries.toNat + 2) =
      .stillLooping init_state (max_retries.toNat + 2) ∧
    (max_retries + 1 : ℤ) < ((max_retries.toNat + 2 : ℕ) : ℤ) := by
  constructor
  · have hnone : lookupA init_state.execution_cache
        (get_cache_key "execute_tool" [server_url, tool_name, paramsStr parameters]) = none := rfl
    simp only [execute_tool_with_retry, hnone]
    simpa using retryLoop_exc init_state 0 server_url tool_name parameters
      max_retries max_retries h message (max_retries.toNat + 2) 0 none
  · omega

/-- C1 witness: with `maxRetries = 2`, four iterations have made four
remote calls (> 3 = maxRetries + 1) and the loop is still running. -/
theorem retry_attempts_unbounded_witness :
    execute_tool_with_retry init_state 0 60 "http://s" "echo" [] 2
        (fun _ => AttemptOutcome.exc "timeout") 4 =
      .stillLooping init_state 4 ∧ (2 + 1 : ℤ) < ((4 : ℕ) : ℤ) :=
  retry_attempts_unbounded "http://s" "echo" [] 2 (by decide) "timeout"

/-! ## C3: parameters are never validated -/

/-- C3: on a cache miss, `executeWithRetry` issues a remote execute call on
its very first iteration for every `params` value — nothing inspects the
parameters before the POST, because `jsonschema.validate` is never called —
and no returned `ExecutionResult` can carry a validation-error text: the
only error text the function can produce is the `Failed after N attempts:`
exhaustion message (the `except ValidationError` handler is dead code). -/
theorem no_parameter_validation (st : ClientState) (now cache_ttl : ℚ)
    (server_url tool_name : String) (parameters : Params) (max_retries : ℤ)
    (oracle : ℕ → AttemptOutcome) (fuel : ℕ)
    (hcache : lookupA st.execution_cache
      (get_cache_key "execute_tool" [server_url, tool_name, paramsStr parameters]) = none)
    (hmr : 0 ≤ max_retries) :
    1 ≤ (execute_tool_with_retry st now cache_ttl server_url tool_name parameters
          max_retries oracle (fuel + 1)).networkCalls ∧
    ((execute_tool_with_retry st now cache_ttl server_url tool_name parameters
          max_retries oracle (fuel + 1)).resultError = none ∨
      ∃ e, (execute_tool_with_retry st now cache_ttl server_url tool_name parameters
          max_retries oracle (fuel + 1)).resultError =
        some ("Failed after " ++ toString (max_retries + 1) ++ " attempts: " ++ e)) := by
  have hrun : execute_tool_with_retry st now cache_ttl server_url tool_name parameters
      max_retries oracle (fuel + 1) =
      retryLoop st now server_url tool_name parameters max_retries max_retries oracle
        (fuel + 1) 0 0 none := by
    simp only [execute_tool_with_retry, hcache]
  rw [hrun]
  constructor
  · simp only [retryLoop]
    rw [if_pos hmr]
    cases hor : oracle 0 with
    | ok payload duration =>
      simp only [hor]
      exact Nat.le_refl _
    | exc message =>
      simp only [hor]
      exact retryLoop_calls_ge st now server_url tool_name parameters max_retries max_retries
        oracle fuel 0 (0 + 1) (some message)
  · cases hout : retryLoop st now server_url tool_name parameters max_retries max_retries
        oracle (fuel + 1) 0 0 none with
    | finished r st' c =>
      rcases retryLoop_finished_shape st now server_url tool_name parameters max_retries
          max_retries oracle (fuel + 1) 0 0 none r st' c hout with ⟨he, _⟩ | ⟨e, he, _⟩
      · exact Or.inl (by simp [RunOutcome.resultError, he])
      · exact Or.inr ⟨e, by simp [RunOutcome.resultError, he]⟩
    | stillLooping st' c => exact Or.inl (by simp [RunOutcome.resultError])
    | raised m st' c => exact Or.inl (by simp [RunOutcome.resultError])

/-- C3 witness: a schema-violating parameter object still triggers a
remote call on the first iteration, and the run carries no
validation-error text. -/
theorem no_parameter_validation_witness :
    1 ≤ (execute_tool_with_retry init_state 0 60 "http://s" "calculator"
          [("expression", "5")] 2 (fun _ => AttemptOutcome.ok [("result", "5")] 0)
          (0 + 1)).networkCalls ∧
    ((execute_tool_with_retry init_state 0 60 "http://s" "calculator"
          [("expression", "5")] 2 (fun _ => AttemptOutcome.ok [("result", "5")] 0)
          (0 + 1)).resultError = none ∨
      ∃ e, (execute_tool_with_retry init_state 0 60 "http://s" "calculator"
          [("expression", "5")] 2 (fun _ => AttemptOutcome.ok [("result", "5")] 0)
          (0 + 1)).resultError =
        some ("Failed after " ++ toString ((2 : ℤ) + 1) ++ " attempts: " ++ e)) :=
  no_parameter_validation init_state 0 60 "http://s" "calculator"
    [("expression", "5")] 2 (fun _ => AttemptOutcome.ok [("result", "5")] 0) 0
    (by decide) (by decide)

/-! ## C4: a 2xx body carrying an error field is returned as success -/

/-- C4 counterexample: a 2xx response whose JSON body is
`{"error": "boom"}` is returned immediately as an `ExecutionResult` with
`success = true` and the error body as its `result` payload — it is
neither retried nor surfaced as a failure. -/
theorem error_body_success_cex :
    execute_tool_with_retry init_state 0 60 "http://s" "t" [] 3
        (fun _ => AttemptOutcome.ok [("error", "boom")] 0) 1 =
      .finished
        { tool_name := "t", server_url := "http://s", parameters := []
          result := some [("error", "boom")], success := true
          execution_time := 0, timestamp := 0, error := none }
        init_state 1 := by decide

/-- C4 (amended): every attempt whose remote execute call returns an HTTP
2xx JSON body — whether or not the body carries an `"error"` field — is
returned as a successful `ExecutionResult` with the parsed body as its
result payload after exactly one remote call; the body is never inspected
for an `error` field and the attempt is never treated as retryable. -/
theorem http_2xx_always_success (st : ClientState) (now cache_ttl : ℚ)
    (server_url tool_name : String) (parameters : Params) (max_retries : ℤ)
    (payload : Params) (duration : ℚ) (oracle : ℕ → AttemptOutcome) (fuel : ℕ)
    (hcache : lookupA st.execution_cache
      (get_cache_key "execute_tool" [server_url, tool_name, paramsStr parameters]) = none)
    (hmr : 0 ≤ max_retries) (hok : oracle 0 = AttemptOutcome.ok payload duration) :
    execute_tool_with_retry st now cache_ttl server_url tool_name parameters
        max_retries oracle (fuel + 1) =
      .finished
        { tool_name := tool_name, server_url := server_url, parameters := parameters
          result := some payload, success := true
          execution_time := duration, timestamp := now, error := none }
        (updateToolStats st server_url tool_name now duration) 1 := by
  simp only [execute_tool_with_retry, hcache]
  simp only [retryLoop]
  rw [if_pos hmr, hok]

/-- C4 witness: the amended claim instantiated on a body that does carry
an `"error"` field. -/
theorem http_2xx_always_success_witness :
    execute_tool_with_retry init_state 0 60 "http://s" "t" [] 3
        (fun _ => AttemptOutcome.ok [("error", "x")] 2) (0 + 1) =
      .finished
        { tool_name := "t", server_url := "http://s", parameters := []
          result := some [("error", "x")], success := true
          execution_time := 2, timestamp := 0, error := none }
        (updateToolStats init_state "http://s" "t" 0 2) 1 :=
  http_2xx_always_success init_state 0 60 "http://s" "t" [] 3 [("error", "x")] 2
    (fun _ => AttemptOutcome.ok [("error", "x")] 2) 0 (by decide) (by decide) rfl

/-! ## C5: successful results are never written to the execution cache -/

/-- C5: `executeWithRetry` never writes the execution cache — the cache
after any run equals the cache before it — so a successful call stores
nothing, and an immediately repeated identical call misses the cache and
performs a remote call again (1 network call, not the promised 0). -/
theorem execution_results_never_cached (st : ClientState) (now now2 cache_ttl : ℚ)
    (server_url tool_name : String) (parameters : Params) (max_retries : ℤ)
    (payload : Params) (duration : ℚ) (oracle : ℕ → AttemptOutcome) (fuel : ℕ)
    (hcache : lookupA st.execution_cache
      (get_cache_key "execute_tool" [server_url, tool_name, paramsStr parameters]) = none)
    (hmr : 0 ≤ max_retries) (hok : oracle 0 = AttemptOutcome.ok payload duration) :
    ((execute_tool_with_retry st now cache_ttl server_url tool_name parameters
        max_retries oracle (fuel + 1)).state).execution_cache = st.execution_cache ∧
    (execute_tool_with_retry
        ((execute_tool_with_retry st now cache_ttl server_url tool_name parameters
          max_retries oracle (fuel + 1)).state)
        now2 cache_ttl server_url tool_name parameters max_retries oracle
        (fuel + 1)).networkCalls = 1 := by
  have hfirst := http_2xx_always_success st now cache_ttl server_url tool_name parameters
    max_retries payload duration oracle fuel hcache hmr hok
  have hstate : (execute_tool_with_retry st now cache_ttl server_url tool_name parameters
      max_retries oracle (fuel + 1)).state =
      updateToolStats st server_url tool_name now duration := by
    rw [hfirst]; rfl
  have hexec : ((execute_tool_with_retry st now cache_ttl server_url tool_name parameters
      max_retries oracle (fuel + 1)).state).execution_cache = st.execution_cache := by
    rw [hstate]; exact updateToolStats_exec_cache st server_url tool_name now duration
  refine ⟨hexec, ?_⟩
  have hsecond := http_2xx_always_success
    ((execute_tool_with_retry st now cache_ttl server_url tool_name parameters
      max_retries oracle (fuel + 1)).state)
    now2 cache_ttl server_url tool_name parameters max_retries payload duration oracle fuel
    (by rw [hexec]; exact hcache) hmr hok
  rw [hsecond]
  rfl

/-- C5 witness: a concrete successful call leaves the (empty) execution
cache empty, and its immediate repetition performs one remote call. -/
theorem execution_results_never_cached_witness :
    ((execute_tool_with_retry init_state 0 60 "http://s" "t" [] 2
        (fun _ => AttemptOutcome.ok [("result", "4")] 1) (0 + 1)).state).execution_cache =
      init_state.execution_cache ∧
    (execute_tool_with_retry
        ((execute_tool_with_retry init_state 0 60 "http://s" "t" [] 2
          (fun _ => AttemptOutcome.ok [("result", "4")] 1) (0 + 1)).state)
        7 60 "http://s" "t" [] 2 (fun _ => AttemptOutcome.ok [("result", "4")] 1)
        (0 + 1)).networkCalls = 1 :=
  execution_results_never_cached init_state 0 7 60 "http://s" "t" [] 2
    [("result", "4")] 1 (fun _ => AttemptOutcome.ok [("result", "4")] 1) 0
    (by decide) (by decide) rfl

/-! ## C10: the tool catalog only grows -/

theorem mem_addToGroup_self (acc : List (String × List ToolInfo)) (tool : ToolInfo) :
    tool ∈ (lookupA (addToGroup acc tool) tool.server_url).getD [] := by
  unfold addToGroup
  rw [lookupA_insertA_self]
  simp

theorem mem_addToGroup_mono {acc : List (String × List ToolInfo)} {s : String}
    {y : ToolInfo} (t : ToolInfo) (h : y ∈ (lookupA acc s).getD []) :
    y ∈ (lookupA (addToGroup acc t) s).getD [] := by
  unfold addToGroup
  by_cases hs : s = t.server_url
  · subst hs
    rw [lookupA_insertA_self]
    exact List.mem_append_left _ h
  · rw [lookupA_insertA_ne _ _ _ _ hs]
    exact h

theorem group_fold_mono :
    ∀ (l : List (String × ToolInfo)) (acc : List (String × List ToolInfo))
      (s : String) (y : ToolInfo), y ∈ (lookupA acc s).getD [] →
      y ∈ (lookupA (l.foldl (fun a p => addToGroup a p.2) acc) s).getD [] := by
  intro l
  induction l with
  | nil => intro acc s y h; exact h
  | cons p rest ih =>
    intro acc s y h
    exact ih (addToGroup acc p.2) s y (mem_addToGroup_mono p.2 h)

theorem group_fold_complete :
    ∀ (l : List (String × ToolInfo)) (acc : List (String × List ToolInfo))
      (k : String) (t : ToolInfo), (k, t) ∈ l →
      t ∈ (lookupA (l.foldl (fun a p => addToGroup a p.2) acc) t.server_url).getD [] := by
  intro l
  induction l with
  | nil => intro acc k t h; exact absurd h (by simp)
  | cons p rest ih =>
    intro acc k t h
    rcases List.mem_cons.mp h with h | h
    · subst h
      exact group_fold_mono rest (addToGroup acc t) t.server_url t
        (mem_addToGroup_self acc t)
    · exact ih (addToGroup acc p.2) k t h

/-- C10: the catalog only grows.  Neither of the two operations that touch
`tool_cache` ever removes an existing (endpoint, name) key — a discovery
sweep only upserts and a (successful) execution only updates an existing
entry in place — and a cache-hit `discoverAll` snapshot contains every
cached tool, grouped under its own endpoint, including tools of endpoints
that are unhealthy or no longer advertise them. -/
theorem tool_catalog_only_grows :
    (∀ (st : ClientState) (server_url : String) (tools_data : List RawTool)
       (a : String), a ∈ keysA st.tool_cache →
       a ∈ keysA (discover_tools_from_server st server_url tools_data).2.tool_cache) ∧
    (∀ (st : ClientState) (now cache_ttl : ℚ) (server_url tool_name : String)
       (parameters : Params) (max_retries : ℤ) (oracle : ℕ → AttemptOutcome)
       (fuel : ℕ) (a : String), a ∈ keysA st.tool_cache →
       a ∈ keysA ((execute_tool_with_retry st now cache_ttl server_url tool_name
         parameters max_retries oracle fuel).state).tool_cache) ∧
    (∀ (st : ClientState) (k : String) (t : ToolInfo), (k, t) ∈ st.tool_cache →
       t ∈ (lookupA (discover_all_tools_cachehit st) t.server_url).getD []) := by
  refine ⟨?_, ?_, ?_⟩
  · intro st server_url tools_data a ha
    exact (discover_fold_spec server_url tools_data [] st).2.2 a ha
  · intro st now cache_ttl server_url tool_name parameters max_retries oracle fuel a ha
    simp only [execute_tool_with_retry]
    cases hc : lookupA st.execution_cache
        (get_cache_key "execute_tool" [server_url, tool_name, paramsStr parameters]) with
    | none =>
      simp only [hc]
      exact retryLoop_keys st now server_url tool_name parameters max_retries max_retries
        oracle fuel 0 0 none a ha
    | some result =>
      simp only [hc]
      by_cases hfresh : now - result.timestamp < cache_ttl
      · rw [if_pos hfresh]; exact ha
      · rw [if_neg hfresh]
        exact retryLoop_keys st now server_url tool_name parameters max_retries max_retries
          oracle fuel 0 0 none a ha
  · intro st k t h
    exact group_fold_complete st.tool_cache [] k t h

/-- C10 witness: a concrete pre-existing key survives a re-discovery sweep
and a (looping) execution, and its tool appears in the cache-hit snapshot. -/
theorem tool_catalog_only_grows_witness :
    ("http://s:calculator" ∈
      keysA (discover_tools_from_server c7_state "http://s" [c7_raw]).2.tool_cache) ∧
    ("http://s:calculator" ∈
      keysA ((execute_tool_with_retry c7_state 0 60 "http://s" "calculator" [] 2
        (fun _ => AttemptOutcome.exc "timeout") 1).state).tool_cache) ∧
    (c7_prior_info ∈ (lookupA (discover_all_tools_cachehit c7_state)
      c7_prior_info.server_url).getD []) :=
  ⟨tool_catalog_only_grows.1 c7_state "http://s" [c7_raw] "http://s:calculator" (by decide),
   tool_catalog_only_grows.2.1 c7_state 0 60 "http://s" "calculator" [] 2
     (fun _ => AttemptOutcome.exc "timeout") 1 "http://s:calculator" (by decide),
   tool_catalog_only_grows.2.2 c7_state "http://s:calculator" c7_prior_info (by decide)⟩

/-! ## Selector score bounds -/

theorem foldl_rat_nonneg {α : Type} (f : ℚ → α → ℚ)
    (hf : ∀ a x, 0 ≤ a → 0 ≤ f a x) :
    ∀ (l : List α) (a : ℚ), 0 ≤ a → 0 ≤ l.foldl f a := by
  intro l
  induction l with
  | nil => intro a ha; simpa using ha
  | cons x xs ih => intro a ha; exact ih (f a x) (hf a x ha)

theorem categoryStep_nonneg (text_lower tool_text : String) (tool : ToolInfo)
    (a : ℚ) (ck : String × List String) (ha : 0 ≤ a) :
    0 ≤ categoryStep text_lower tool_text tool a ck := by
  simp only [categoryStep]
  split
  · split
    · exact add_nonneg ha (by positivity)
    · exact add_nonneg ha (by positivity)
  · exact ha

theorem semantic_similarity_nonneg (text : String) (tool : ToolInfo) :
    0 ≤ calculate_semantic_similarity text tool := by
  simp only [calculate_semantic_similarity]
  refine le_min ?_ zero_le_one
  refine foldl_rat_nonneg _ (fun a x ha => categoryStep_nonneg _ _ _ a x ha) _ _ ?_
  split
  · exact le_refl 0
  · exact div_nonneg (Nat.cast_nonneg _) (Nat.cast_nonneg _)

theorem semantic_similarity_le_one (text : String) (tool : ToolInfo) :
    calculate_semantic_similarity text tool ≤ 1 := by
  simp only [calculate_semantic_similarity]
  exact min_le_right _ _

theorem contextOverlapStep_nonneg (tool : ToolInfo) (context : List String)
    (a : ℚ) (past : ContextEntry) (ha : 0 ≤ a) :
    0 ≤ contextOverlapStep tool context a past := by
  simp only [contextOverlapStep]
  split
  · split
    · exact ha
    · split
      · exact add_nonneg ha (div_nonneg (Nat.cast_nonneg _) (Nat.cast_nonneg _))
      · exact ha
  · exact ha

theorem usage_score_bounds (st : SelectorState) (now : ℚ) (tool : ToolInfo) :
    0 ≤ usage_score_of st now tool ∧ usage_score_of st now tool ≤ 1 := by
  simp only [usage_score_of]
  exact ⟨le_min (by positivity) zero_le_one, min_le_right _ _⟩

theorem context_score_bounds (st : SelectorState) (tool : ToolInfo)
    (context : List String) :
    0 ≤ context_score_of st tool context ∧ context_score_of st tool context ≤ 1 := by
  simp only [context_score_of]
  refine ⟨le_min ?_ zero_le_one, min_le_right _ _⟩
  split
  · exact foldl_rat_nonneg _ (fun a x ha => contextOverlapStep_nonneg tool context a x ha)
      _ _ (le_refl 0)
  · exact le_refl 0

theorem performance_score_bounds (tool : ToolInfo) :
    0 ≤ performance_score_of tool ∧ performance_score_of tool ≤ 1 := by
  simp only [performance_score_of]
  split
  · rename_i ht
    refine ⟨le_max_left _ _, max_le zero_le_one ?_⟩
    rw [div_le_one (by norm_num : (0:ℚ) < 5)]
    linarith
  · exact ⟨le_refl 0, zero_le_one⟩

theorem usage_preference_bounds (st : SelectorState) (now : ℚ) (tool : ToolInfo)
    (context : List String) :
    0 ≤ calculate_usage_preference st now tool context ∧
    calculate_usage_preference st now tool context ≤ 1 := by
  obtain ⟨hu0, hu1⟩ := usage_score_bounds st now tool
  obtain ⟨hc0, hc1⟩ := context_score_bounds st tool context
  obtain ⟨hp0, hp1⟩ := performance_score_bounds tool
  simp only [calculate_usage_preference]
  constructor <;> linarith

theorem detect_intent_confidence (text : String)
    (entities : List (String × List String)) :
    ∀ p ∈ detect_intent text entities, p.2 = 1 := by
  intro p hp
  simp only [detect_intent] at hp
  split_ifs at hp <;> simp_all

theorem intent_fold_bounds (tool : ToolInfo) :
    ∀ (pairs : List (String × ℚ)) (acc : ℚ × Option String),
      0 ≤ acc.1 → acc.1 ≤ 1 → (∀ p ∈ pairs, p.2 ≤ 1) →
      0 ≤ (pairs.foldl (intentStep tool) acc).1 ∧
      (pairs.foldl (intentStep tool) acc).1 ≤ 1 := by
  intro pairs
  induction pairs with
  | nil => intro acc h0 h1 _; exact ⟨h0, h1⟩
  | cons p rest ih =>
    intro acc h0 h1 hp
    have hstep : 0 ≤ (intentStep tool acc p).1 ∧ (intentStep tool acc p).1 ≤ 1 := by
      simp only [intentStep]
      cases hf : intent_patterns.find? (fun q => q.1 == p.1 && q.2.contains tool.name) with
      | none => exact ⟨h0, h1⟩
      | some q =>
        exact ⟨le_trans h0 (le_max_left _ _), max_le h1 (hp p (by simp))⟩
    simp only [List.foldl_cons]
    exact ih (intentStep tool acc p) hstep.1 hstep.2 (fun q hq => hp q (by simp [hq]))

theorem entityStep_nonneg (tool : ToolInfo) (acc : ℚ × List String)
    (p : String × List String) (ha : 0 ≤ acc.1) : 0 ≤ (entityStep tool acc p).1 := by
  cases hl : lookupA alignments p.1 with
  | none => simpa [entityStep, hl] using ha
  | some aligned =>
    simp only [entityStep, hl]
    split
    · exact add_nonneg ha (by norm_num)
    · exact ha

theorem entityFold_nonneg (tool : ToolInfo) (entities : List (String × List String)) :
    0 ≤ (entityFold tool entities).1 := by
  simp only [entityFold]
  split
  · exact le_refl 0
  · have aux : ∀ (l : List (String × List String)) (acc : ℚ × List String),
        0 ≤ acc.1 → 0 ≤ (l.foldl (entityStep tool) acc).1 := by
      intro l
      induction l with
      | nil => intro acc ha; exact ha
      | cons p rest ih =>
        intro acc ha
        exact ih (entityStep tool acc p) (entityStep_nonneg tool acc p ha)
    exact aux entities (0, []) (le_refl 0)

/-- The entity score is at most 0.5 per entity type whose alignment lookup
succeeds. -/
theorem entity_fold_card (tool : ToolInfo) :
    ∀ (l : List (String × List String)) (acc : ℚ × List String),
      (l.foldl (entityStep tool) acc).1 ≤
        acc.1 + ((l.filter (fun p => (lookupA alignments p.1).isSome)).length : ℚ) * (1/2) := by
  intro l
  induction l with
  | nil => intro acc; simp
  | cons p rest ih =>
    intro acc
    simp only [List.foldl_cons]
    cases hl : lookupA alignments p.1 with
    | none =>
      have hstep : entityStep tool acc p = acc := by simp [entityStep, hl]
      rw [hstep, List.filter_cons_of_neg (by simp [hl])]
      exact ih acc
    | some aligned =>
      have hstep : (entityStep tool acc p).1 ≤ acc.1 + 1/2 := by
        simp only [entityStep, hl]
        split
        · exact le_refl _
        · linarith
      have h2 := ih (entityStep tool acc p)
      rw [List.filter_cons_of_pos (by simp [hl])]
      simp only [List.length_cons]
      push_cast
      linarith

/-- Every fixture returned by `extract_entities` contains at most one
entity type present in the alignment table. -/
theorem extract_entities_aligned_card (msg : String) :
    ((extract_entities msg).filter
      (fun p => (lookupA alignments p.1).isSome)).length ≤ 1 := by
  simp only [extract_entities]
  split_ifs <;> decide

theorem entityFold_extract_le_half (tool : ToolInfo) (msg : String) :
    (entityFold tool (extract_entities msg)).1 ≤ 1/2 := by
  simp only [entityFold]
  split
  · norm_num
  · have h1 := entity_fold_card tool (extract_entities msg) (0, [])
    have h2 : (((extract_entities msg).filter
        (fun p => (lookupA alignments p.1).isSome)).length : ℚ) ≤ 1 := by
      exact_mod_cast extract_entities_aligned_card msg
    calc ((extract_entities msg).foldl (entityStep tool) (0, [])).1
        ≤ (0 : ℚ) + (((extract_entities msg).filter
            (fun p => (lookupA alignments p.1).isSome)).length : ℚ) * (1/2) := h1
      _ ≤ 1/2 := by linarith

/-- The combined confidence of one scored tool lies in [0, 1] whenever the
detected intent confidences are ≤ 1 and the entities come from
`extract_entities`. -/
theorem scoreTool_confidence_bounds (st : SelectorState) (now : ℚ)
    (user_message : String) (context : List String) (msg2 : String)
    (intents : List (String × ℚ)) (tool : ToolInfo)
    (hi : ∀ p ∈ intents, p.2 ≤ 1) :
    0 ≤ (scoreTool st now user_message context (extract_entities msg2) intents tool).confidence ∧
    (scoreTool st now user_message context (extract_entities msg2) intents tool).confidence ≤ 1 := by
  have hs0 := semantic_similarity_nonneg user_message tool
  have hs1 := semantic_similarity_le_one user_message tool
  have hu := usage_preference_bounds st now tool context
  have hif := intent_fold_bounds tool (intents.take 2) (0, none) (le_refl 0) zero_le_one
    (fun p hp => hi p (List.take_subset _ _ hp))
  have he0 := entityFold_nonneg tool (extract_entities msg2)
  have he1 := entityFold_extract_le_half tool msg2
  simp only [scoreTool]
  constructor
  · linarith [hu.1, hif.1]
  · linarith [hu.2, hif.2]

/-! ## Membership through filtering, sorting and truncation -/

theorem mem_of_mem_insertDesc {x m : ToolMatch} :
    ∀ {l : List ToolMatch}, x ∈ insertDesc m l → x = m ∨ x ∈ l := by
  intro l
  induction l with
  | nil => intro h; simpa [insertDesc] using h
  | cons y ys ih =>
    intro h
    simp only [insertDesc] at h
    split at h
    · rcases List.mem_cons.mp h with h | h
      · exact Or.inr (by simp [h])
      · rcases ih h with h | h
        · exact Or.inl h
        · exact Or.inr (by simp [h])
    · rcases List.mem_cons.mp h with h | h
      · exact Or.inl h
      · exact Or.inr h

theorem mem_of_mem_sort_fold {x : ToolMatch} :
    ∀ (l acc : List ToolMatch),
      x ∈ l.foldl (fun a m => insertDesc m a) acc → x ∈ acc ∨ x ∈ l := by
  intro l
  induction l with
  | nil => intro acc h; exact Or.inl h
  | cons m rest ih =>
    intro acc h
    simp only [List.foldl_cons] at h
    rcases ih (insertDesc m acc) h with h | h
    · rcases mem_of_mem_insertDesc h with h | h
      · exact Or.inr (by simp [h])
      · exact Or.inl h
    · exact Or.inr (by simp [h])

theorem mem_of_mem_sortByConfidenceDesc {x : ToolMatch} {l : List ToolMatch}
    (h : x ∈ sortByConfidenceDesc l) : x ∈ l := by
  rcases mem_of_mem_sort_fold l [] h with h | h
  · simp at h
  · exact h

theorem mem_of_mem_scoring_fold (st : SelectorState) (now : ℚ)
    (user_message : String) (context : List String)
    (entities : List (String × List String)) (intents : List (String × ℚ)) :
    ∀ (l : List ToolInfo) (acc : List ToolMatch) (x : ToolMatch),
      x ∈ l.foldl (fun acc tool =>
        if (1 : ℚ)/10 < (scoreTool st now user_message context entities intents tool).confidence
        then acc ++ [scoreTool st now user_message context entities intents tool]
        else acc) acc →
      x ∈ acc ∨ ∃ tool, x = scoreTool st now user_message context entities intents tool := by
  intro l
  induction l with
  | nil => intro acc x h; exact Or.inl h
  | cons tool rest ih =>
    intro acc x h
    simp only [List.foldl_cons] at h
    rcases ih _ x h with h | h
    · split at h
      · rcases List.mem_append.mp h with h | h
        · exact Or.inl h
        · exact Or.inr ⟨tool, by simpa using h⟩
      · exact Or.inl h
    · exact Or.inr h

/-! ## C2: every returned confidence lies in [0, 1] -/

/-- C2: for every selector state, time, catalog, message, context and
`maxTools`, every `ToolMatch` returned by `selectTools` has confidence in
the closed interval [0, 1]. -/
theorem select_tools_confidence_in_unit (st : SelectorState) (now : ℚ)
    (catalog : List (String × List ToolInfo)) (user_message : String)
    (context : List String) (max_tools : ℕ) :
    ∀ m ∈ select_tools st now catalog user_message context max_tools,
      0 ≤ m.confidence ∧ m.confidence ≤ 1 := by
  intro m hm
  simp only [select_tools] at hm
  split at hm
  · simp at hm
  · have hm2 := List.take_subset _ _ hm
    have hm3 := mem_of_mem_sortByConfidenceDesc hm2
    rcases mem_of_mem_scoring_fold st now user_message context
        (extract_entities user_message)
        (detect_intent user_message (extract_entities user_message)) _ [] m hm3 with h | ⟨tool, rfl⟩
    · simp at h
    · exact scoreTool_confidence_bounds st now user_message context user_message _ tool
        (fun p hp => (detect_intent_confidence user_message
          (extract_entities user_message) p hp).le)

/-- C2 witness: the match returned on the calculator scenario has its
confidence (0.185) inside [0, 1]. -/
theorem select_tools_confidence_in_unit_witness :
    0 ≤ c9_match.confidence ∧ c9_match.confidence ≤ 1 :=
  select_tools_confidence_in_unit init_selector 0 sample_catalog
    "Calculate 2 + 2 * 3" [] 3 c9_match (by with_unfolding_all decide)

/-! ## C9: the calculator scenario -/

/-- C9 counterexample: on the message `"Calculate 2 + 2 * 3"` over the
sample catalog (fresh selector), the top — and only — match is
`calculator`, but its confidence is 37/200 = 0.185, NOT greater than 0.5;
and the extracted `math_expression` entity is the two-element list
`["2 + 2 * 3", "15 + 25"]`, not exactly `"2 + 2 * 3"`. -/
theorem calculator_scenario_cex :
    (select_tools init_selector 0 sample_catalog "Calculate 2 + 2 * 3" [] 3).map
        (fun m => (m.tool.name, m.confidence)) = [("calculator", 37/200)] ∧
    ¬ ((1 : ℚ)/2 < 37/200) ∧
    lookupA (extract_entities "Calculate 2 + 2 * 3") "math_expression" =
      some ["2 + 2 * 3", "15 + 25"] ∧
    (["2 + 2 * 3", "15 + 25"] : List String) ≠ ["2 + 2 * 3"] := by
  with_unfolding_all decide

/-- C9 (amended): on the message `"Calculate 2 + 2 * 3"` against the
sample catalog containing the `calculator` tool with parameter
`expression`, `selectTools` returns `calculator` as the single top-ranked
match with confidence 0.185 — above the 0.1 inclusion threshold but below
0.5 (no intent fixture fires for this message) — and the FIRST extracted
`math_expression` entity equals `"2 + 2 * 3"`. -/
theorem calculator_scenario_amended :
    select_tools init_selector 0 sample_catalog "Calculate 2 + 2 * 3" [] 3 = [c9_match] ∧
    c9_match.tool.name = "calculator" ∧
    c9_match.confidence = 37/200 ∧
    (1 : ℚ)/10 < 37/200 ∧
    ((lookupA (extract_entities "Calculate 2 + 2 * 3") "math_expression").getD []).head? =
      some "2 + 2 * 3" := by
  with_unfolding_all decide

end Echo
